import Mathlib

/-!
Verification of the finance-miniapp data-freshness layer (src/app.py).

The file embeds, as executable Lean definitions, the pure logic of the
source: the sparse-column reconciler of `read_breakdown_cached`, the
search/pagination post-processing of the `breakdown` endpoint, the tenant
resolver (`get_worksheet_names`, `DDS_SOURCES` lookup), and the write
endpoints (`set_date`, `set_month`, `students_set_month`,
`staff_set_month`).  The cache layer and the refresh scheduler, whose
executable code is not part of src/ (the cache semantics live in the
flask_caching library; no scheduler code is present), are modelled from
the spec where a claim needs them, as marked in their doc comments.

Strings: Python `str.strip()` is modelled by `pyStrip` (leading/trailing
whitespace removal), `str.lower()` by `pyLower`, and the Python `in`
substring test by a character-list infix check; all three are structural
recursions so the kernel can evaluate them on concrete inputs.
-/

/-- Python `str.strip()`: remove leading and trailing whitespace.
Defined by structural recursion over the character list so proofs can
evaluate it (the library `String.trim` is well-founded recursion over
byte positions and does not reduce in the kernel). -/
def pyStrip (s : String) : String :=
  String.mk ((s.data.dropWhile Char.isWhitespace).reverse.dropWhile Char.isWhitespace).reverse

/-- Python `str.lower()`: lowercase every character. -/
def pyLower (s : String) : String :=
  String.mk (s.data.map Char.toLower)

/-- One reconciled ledger row, as built by `read_breakdown_cached`
(src/app.py line 129): the four trimmed cell values of one row index. -/
structure BreakdownRecord where
  amount : String
  article : String
  counterparty : String
  purpose : String
deriving DecidableEq, Repr

/-- The helper `g(a, i)` of `read_breakdown_cached` (src/app.py lines
117-122): read the first cell of row `i` of block `a`, trim it, and read
any missing row or missing first cell as the empty string (the Python
code reaches this via the broad `except` around `a[i][0]`; `(v or "")`
is the identity on the string values `batch_get` returns). -/
def g (a : List (List String)) (i : Nat) : String :=
  match a[i]? with
  | some row =>
    match row[0]? with
    | some v => pyStrip v
    | none => ""
  | none => ""

/-- `max_len` of `read_breakdown_cached` (src/app.py line 115): the
maximum length across the four input column blocks. -/
def maxLen (b_amount b_counterparty b_purpose b_article : List (List String)) : Nat :=
  max (max (max b_amount.length b_article.length) b_counterparty.length) b_purpose.length

/-- The reconciliation loop of `read_breakdown_cached` (src/app.py lines
124-130): for each row index below `max_len`, trim the four cells; skip
the row when both `amount` and `article` are empty, otherwise append one
record of the four trimmed values, in input row order. -/
def read_breakdown (b_amount b_counterparty b_purpose b_article : List (List String)) :
    List BreakdownRecord :=
  (List.range (maxLen b_amount b_counterparty b_purpose b_article)).filterMap (fun i =>
    let amount := g b_amount i
    let article := g b_article i
    if amount = "" ∧ article = "" then none
    else some { amount := amount, article := article,
                counterparty := g b_counterparty i, purpose := g b_purpose i })

/-- The keep-row predicate of the reconciler: row `i` is emitted iff its
trimmed amount or trimmed article is non-empty. -/
def keepRow (b_amount b_article : List (List String)) (i : Nat) : Bool :=
  !(g b_amount i == "" && g b_article i == "")

/-- The record the reconciler builds for row `i`. -/
def rowRecord (b_amount b_counterparty b_purpose b_article : List (List String))
    (i : Nat) : BreakdownRecord :=
  { amount := g b_amount i, article := g b_article i,
    counterparty := g b_counterparty i, purpose := g b_purpose i }

lemma filterMap_ite_eq_filter_map {α β : Type} (p : α → Bool) (f : α → β) (l : List α) :
    (l.filterMap (fun a => if p a then some (f a) else none)) =
      (l.filter p).map f := by
  induction l with
  | nil => rfl
  | cons a t ih =>
    by_cases h : p a
    · simp [List.filterMap_cons, List.filter_cons, h, ih]
    · simp [List.filterMap_cons, List.filter_cons, h, ih]

lemma read_breakdown_eq_filter_map (bA bC bP bAr : List (List String)) :
    read_breakdown bA bC bP bAr =
      ((List.range (maxLen bA bC bP bAr)).filter (keepRow bA bAr)).map
        (rowRecord bA bC bP bAr) := by
  have h := filterMap_ite_eq_filter_map (keepRow bA bAr) (rowRecord bA bC bP bAr)
      (List.range (maxLen bA bC bP bAr))
  rw [read_breakdown, ← h]
  apply List.filterMap_congr
  intro i _
  by_cases hA : g bA i = ""
  · by_cases hR : g bAr i = ""
    · simp [keepRow, rowRecord, hA, hR]
    · simp [keepRow, rowRecord, hA, hR]
  · simp [keepRow, rowRecord, hA]

/-- Claim C1: for every four input column blocks, the reconciler emits,
for each row index `i` from 0 up to the maximum block length, exactly one
record of the four trimmed cell-`i` values if and only if the trimmed
amount or the trimmed article is non-empty; a row with both empty is
dropped silently, and output order matches input row order with no
re-sorting.  Formally, the output is exactly the in-order map of the
row-record over the in-order kept row indices. -/
theorem reconciler_emit_iff_amount_or_article (bA bC bP bAr : List (List String)) :
    read_breakdown bA bC bP bAr =
      ((List.range (maxLen bA bC bP bAr)).filter (keepRow bA bAr)).map
        (rowRecord bA bC bP bAr) ∧
    (∀ i, keepRow bA bAr i = true ↔ (g bA i ≠ "" ∨ g bAr i ≠ "")) := by
  refine ⟨read_breakdown_eq_filter_map bA bC bP bAr, fun i => ?_⟩
  constructor
  · intro h
    by_contra hc
    push_neg at hc
    simp [keepRow, hc.1, hc.2] at h
  · intro h
    rcases h with h | h <;> simp [keepRow, h]

/-- The number of rows the reconciler drops: indices below `max_len`
whose trimmed amount and trimmed article are both empty. -/
def droppedCount (bA bC bP bAr : List (List String)) : Nat :=
  ((List.range (maxLen bA bC bP bAr)).filter (fun i => !(keepRow bA bAr i))).length

lemma length_filter_add_length_filter_not {α : Type} (l : List α) (p : α → Bool) :
    (l.filter p).length + (l.filter (fun a => !(p a))).length = l.length := by
  induction l with
  | nil => rfl
  | cons a t ih => by_cases h : p a <;> simp [List.filter_cons, h] <;> omega

/-- Claim C2: the reconciler is total on ragged input: a missing row
(index at or past the block's length) and a missing first cell (an empty
row) are both read as the empty string rather than failing, all-empty
input yields the empty sequence, and the output has exactly `max_len`
minus the number of dropped rows records. -/
theorem reconciler_ragged_safe :
    (∀ (a : List (List String)) (i : Nat), a.length ≤ i → g a i = "") ∧
    (∀ (a : List (List String)) (i : Nat), a[i]? = some [] → g a i = "") ∧
    read_breakdown [] [] [] [] = [] ∧
    (∀ bA bC bP bAr, (read_breakdown bA bC bP bAr).length =
      maxLen bA bC bP bAr - droppedCount bA bC bP bAr) := by
  refine ⟨fun a i h => ?_, fun a i h => ?_, rfl, fun bA bC bP bAr => ?_⟩
  · have hn : a[i]? = none := by
      rw [List.getElem?_eq_none_iff]
      exact h
    simp [g, hn]
  · simp [g, h]
  · rw [read_breakdown_eq_filter_map, List.length_map, droppedCount]
    have h := length_filter_add_length_filter_not
      (List.range (maxLen bA bC bP bAr)) (keepRow bA bAr)
    have hr : (List.range (maxLen bA bC bP bAr)).length = maxLen bA bC bP bAr :=
      List.length_range _
    omega

/-- Witness for C2: concrete out-of-range reads return the empty string,
and the blocks-of-lengths-[5, 3, 0, 7] scenario produces exactly
`max_len - dropped = 7 - 4` records without failing. -/
theorem reconciler_ragged_safe_witness :
    g [["a"], ["b"]] 7 = "" ∧ g [[], ["b"]] 0 = "" ∧
    (read_breakdown [["10"], ["  "], [], ["40"], [""]]
      [["x"], ["y"], ["z"]] []
      [["a"], [""], [""], [""], [""], [""], ["zz"]]).length = 7 - 4 :=
  ⟨reconciler_ragged_safe.1 [["a"], ["b"]] 7 (by decide),
   reconciler_ragged_safe.2.1 [[], ["b"]] 0 (by rfl),
   (reconciler_ragged_safe.2.2.2 [["10"], ["  "], [], ["40"], [""]]
      [["x"], ["y"], ["z"]] []
      [["a"], [""], [""], [""], [""], [""], ["zz"]]).trans (by decide)⟩

/-- Modelled from the spec: a cache entry (§3 CacheEntry).  The cache
implementation behind `cache = Cache(app, {CACHE_TYPE: SimpleCache, ...})`
(src/app.py lines 15-18) lives in the flask_caching library, which is not
part of src/; the entry shape follows the spec's
`{value, storedAt, ttlSeconds}`. -/
structure CacheEntry (α : Type) where
  value : α
  storedAt : Nat
  ttl : Nat
deriving DecidableEq, Repr

/-- Modelled from the spec: the cache's key-to-entry mapping (§5), the
only mutable shared state of the core. -/
abbrev CacheSt (κ α : Type) := List (κ × CacheEntry α)

/-- Look up the entry stored for a key, if any. -/
def lookupEntry {κ α : Type} [DecidableEq κ] : CacheSt κ α → κ → Option (CacheEntry α)
  | [], _ => none
  | (k2, e) :: rest, k => if k2 = k then some e else lookupEntry rest k

/-- Modelled from the spec: `invalidate(key)` unconditionally removes the
entry for the key (§4.1). -/
def invalidate {κ α : Type} [DecidableEq κ] : CacheSt κ α → κ → CacheSt κ α
  | [], _ => []
  | (k2, e) :: rest, k => if k2 = k then invalidate rest k else (k2, e) :: invalidate rest k

/-- `cache.clear()`: drops all entries (§4.1; called by the write
endpoints in src/app.py lines 299, 327, 337, 348). -/
def clearCache {κ α : Type} (_st : CacheSt κ α) : CacheSt κ α := []

/-- Store an entry for a key, replacing any previous entry wholesale. -/
def storeEntry {κ α : Type} [DecidableEq κ] (st : CacheSt κ α) (k : κ) (e : CacheEntry α) :
    CacheSt κ α :=
  (k, e) :: invalidate st k

/-- The outcome of one `get` call: the value or an error, the cache state
after the call, and how many times `compute` was invoked during it. -/
structure GetResult (κ α : Type) where
  result : Except String α
  state : CacheSt κ α
  computeCalls : Nat
deriving Repr

/-- Modelled from the spec: `get(key, ttl, compute)` (§4.1, §7).  An entry
is fresh iff `now - storedAt < ttlSeconds` (equivalently
`now < storedAt + ttl`), so an entry whose age equals its TTL is expired
(the spec's `>=`-for-expired comparison).  On a fresh hit the cached value
is returned without invoking `compute`.  Otherwise `compute` is invoked
once: on success the result is stored wholesale with the given TTL; on
failure the cache is not mutated — a stale entry keeps serving its value
with no visible error, and with no prior entry the failure propagates as
an explicit error.  The outcome of `compute` is passed in as
`Option α` (`some v` success, `none` failure). -/
def cacheGet {κ α : Type} [DecidableEq κ] (st : CacheSt κ α) (now : Nat) (k : κ) (ttl : Nat)
    (compute : Option α) : GetResult κ α :=
  match lookupEntry st k with
  | some e =>
    if now < e.storedAt + e.ttl then ⟨Except.ok e.value, st, 0⟩
    else
      match compute with
      | some v => ⟨Except.ok v, storeEntry st k ⟨v, now, ttl⟩, 1⟩
      | none => ⟨Except.ok e.value, st, 1⟩
  | none =>
    match compute with
    | some v => ⟨Except.ok v, storeEntry st k ⟨v, now, ttl⟩, 1⟩
    | none => ⟨Except.error "fetch failed", st, 1⟩

lemma lookupEntry_storeEntry_self {κ α : Type} [DecidableEq κ]
    (st : CacheSt κ α) (k : κ) (e : CacheEntry α) :
    lookupEntry (storeEntry st k e) k = some e := by
  simp [storeEntry, lookupEntry]

lemma lookupEntry_invalidate_self {κ α : Type} [DecidableEq κ]
    (st : CacheSt κ α) (k : κ) :
    lookupEntry (invalidate st k) k = none := by
  induction st with
  | nil => rfl
  | cons p rest ih =>
    obtain ⟨k2, e⟩ := p
    by_cases h : k2 = k
    · simp [invalidate, h, ih]
    · simp [invalidate, lookupEntry, h, ih]

lemma cacheGet_computeCalls_le_one {κ α : Type} [DecidableEq κ]
    (st : CacheSt κ α) (now : Nat) (k : κ) (ttl : Nat) (compute : Option α) :
    (cacheGet st now k ttl compute).computeCalls ≤ 1 := by
  cases hl : lookupEntry st k with
  | none => cases compute <;> simp [cacheGet, hl]
  | some e =>
    by_cases h : now < e.storedAt + e.ttl
    · simp [cacheGet, hl, h]
    · cases compute <;> simp [cacheGet, hl, h]

/-- Claim C3: (spec-modelled cache) if `get(k, ttl, compute)` is called
twice and the first call leaves the value `v` stored at time `now1` with
TTL `ttl`, then a second call strictly within `ttl` seconds returns the
cached value without invoking `compute`, so `compute` runs at most once
across the two calls; and expiry uses the `>=` comparison: a `get` at the
exact moment an entry's age equals its TTL treats it as expired and
invokes `compute`. -/
theorem cache_get_twice_within_ttl {κ α : Type} [DecidableEq κ]
    (st : CacheSt κ α) (now1 now2 ttl : Nat) (k : κ) (c1 c2 : Option α) (v : α)
    (hstore : lookupEntry (cacheGet st now1 k ttl c1).state k = some ⟨v, now1, ttl⟩)
    (h12 : now2 < now1 + ttl) :
    (cacheGet (cacheGet st now1 k ttl c1).state now2 k ttl c2).result = Except.ok v ∧
    (cacheGet (cacheGet st now1 k ttl c1).state now2 k ttl c2).computeCalls = 0 ∧
    (cacheGet st now1 k ttl c1).computeCalls +
      (cacheGet (cacheGet st now1 k ttl c1).state now2 k ttl c2).computeCalls ≤ 1 ∧
    (∀ (e : CacheEntry α) (c : Option α),
      (cacheGet [(k, e)] (e.storedAt + e.ttl) k ttl c).computeCalls = 1) := by
  set st1 := (cacheGet st now1 k ttl c1).state with hst1
  have hsecond : cacheGet st1 now2 k ttl c2 = ⟨Except.ok v, st1, 0⟩ := by
    simp [cacheGet, hstore, h12]
  refine ⟨by rw [hsecond], by rw [hsecond], ?_, fun e c => ?_⟩
  · have h1 := cacheGet_computeCalls_le_one st now1 k ttl c1
    have h2 : (cacheGet st1 now2 k ttl c2).computeCalls = 0 := by rw [hsecond]
    omega
  · have hl : lookupEntry [(k, e)] k = some e := by simp [lookupEntry]
    have hexp : ¬ (e.storedAt + e.ttl < e.storedAt + e.ttl) := by omega
    cases c <;> simp [cacheGet, hl, hexp]

/-- Witness for C3: a fresh store at time 0 with TTL 5 is served from
cache at time 3 with no second compute, and an entry aged exactly its TTL
is recomputed. -/
theorem cache_get_twice_within_ttl_witness :
    (cacheGet (cacheGet ([] : CacheSt String Nat) 0 "bd" 5 (some 7)).state 3 "bd" 5
        (some 8)).result = Except.ok 7 ∧
    (cacheGet (cacheGet ([] : CacheSt String Nat) 0 "bd" 5 (some 7)).state 3 "bd" 5
        (some 8)).computeCalls = 0 ∧
    (cacheGet [("bd", (⟨7, 0, 5⟩ : CacheEntry Nat))] 5 "bd" 5 (some 8)).computeCalls = 1 := by
  have h := cache_get_twice_within_ttl ([] : CacheSt String Nat) 0 3 5 "bd"
    (some 7) (some 8) 7 (by decide) (by decide)
  exact ⟨h.1, h.2.1, h.2.2.2 ⟨7, 0, 5⟩ (some 8)⟩

/-- Claim C4: (spec-modelled cache) a failing `compute` never mutates the
cache: with no prior entry the failure is returned to the caller as an
explicit error and the state is unchanged; with a stale-but-present entry
the stale value is returned with no visible error and the entry is left
in place rather than evicted. -/
theorem cache_failed_compute_policy {κ α : Type} [DecidableEq κ]
    (st : CacheSt κ α) (now : Nat) (k : κ) (ttl : Nat) :
    (lookupEntry st k = none →
      (cacheGet st now k ttl none).result = Except.error "fetch failed" ∧
      (cacheGet st now k ttl none).state = st) ∧
    (∀ e : CacheEntry α, lookupEntry st k = some e → e.storedAt + e.ttl ≤ now →
      (cacheGet st now k ttl none).result = Except.ok e.value ∧
      (cacheGet st now k ttl none).state = st) := by
  constructor
  · intro h
    simp [cacheGet, h]
  · intro e he hstale
    have hfresh : ¬ (now < e.storedAt + e.ttl) := by omega
    simp [cacheGet, he, hfresh]

/-- Witness for C4: with an empty cache a failing fetch for key "bd"
returns an error and leaves the cache empty; with a stale entry (stored
at 0, TTL 5, queried at 9) the stale value 7 is served and the entry
stays put. -/
theorem cache_failed_compute_policy_witness :
    ((cacheGet ([] : CacheSt String Nat) 9 "bd" 5 none).result =
      Except.error "fetch failed" ∧
     (cacheGet ([] : CacheSt String Nat) 9 "bd" 5 none).state = []) ∧
    ((cacheGet [("bd", (⟨7, 0, 5⟩ : CacheEntry Nat))] 9 "bd" 5 none).result =
      Except.ok 7 ∧
     (cacheGet [("bd", (⟨7, 0, 5⟩ : CacheEntry Nat))] 9 "bd" 5 none).state =
      [("bd", (⟨7, 0, 5⟩ : CacheEntry Nat))]) :=
  ⟨(cache_failed_compute_policy ([] : CacheSt String Nat) 9 "bd" 5).1 (by decide),
   (cache_failed_compute_policy [("bd", (⟨7, 0, 5⟩ : CacheEntry Nat))] 9 "bd" 5).2
     ⟨7, 0, 5⟩ (by decide) (by decide)⟩

/-- The worksheet names of one tenant, one per logical data domain
(src/app.py lines 76-80). -/
structure WorksheetNames where
  money : String
  students : String
  staff : String
deriving DecidableEq, Repr

/-- The `mapping` dict of `get_worksheet_names` (src/app.py lines 76-80)
together with the `mapping.get(branch, mapping["Private"])` lookup of
line 81. -/
def worksheetMapping (b : String) : WorksheetNames :=
  if b = "Private" then
    ⟨"DengiBotPrivate", "UchenikiBotPrivate", "SotrudnikiBotPrivate"⟩
  else if b = "Highschool" then
    ⟨"DengiBotHighschool", "UchenikiBotHighschool", "SotrudnikiBotHighschool"⟩
  else if b = "Academy" then
    ⟨"DengiBotAcademy", "UchenikiBotAcademy", "SotrudnikiBotAcademy"⟩
  else
    ⟨"DengiBotPrivate", "UchenikiBotPrivate", "SotrudnikiBotPrivate"⟩

/-- `get_worksheet_names(branch)` (src/app.py lines 74-81): normalise the
branch with `(branch or "Private").strip()` (an absent — `None` — or
empty branch becomes "Private") and look it up, defaulting to the
Private tenant's names. -/
def get_worksheet_names (branch : Option String) : WorksheetNames :=
  worksheetMapping (pyStrip (match branch with
    | none => "Private"
    | some s => if s = "" then "Private" else s))

/-- One tenant's ledger document coordinates: the spreadsheet key and the
worksheet name (src/app.py lines 83-87, `DDS_SOURCES`). -/
structure DdsSource where
  key : String
  sheet : String
deriving DecidableEq, Repr

/-- The `DDS_SOURCES.get(branch, DDS_SOURCES["Private"])` lookup used by
`open_dds_sheet` (src/app.py line 90) and `read_breakdown_cached`
(src/app.py line 111): no normalisation here, an unknown branch falls
back to the Private tenant's coordinates. -/
def ddsSource (b : String) : DdsSource :=
  if b = "Private" then
    ⟨"1FIBAlCkUL2qT9ztd3gfH5kOd3eHLKE53eYKLJzD75dw", "TelegramBotPrivate"⟩
  else if b = "Highschool" then
    ⟨"1N_8nASKsuLaQPbs8BuonLGn5tkjM803X--JyC2_OUt8", "TelegramBotHighschool"⟩
  else if b = "Academy" then
    ⟨"1NkomZvK6mw-QBa7PWW8MhnFN7DdJ_r2a9PSfg095L4Y", "TelegramBotAcademy"⟩
  else
    ⟨"1FIBAlCkUL2qT9ztd3gfH5kOd3eHLKE53eYKLJzD75dw", "TelegramBotPrivate"⟩

lemma pyStrip_eq_self_of_no_ws (s : String)
    (h : ∀ c ∈ s.data, Char.isWhitespace c = false) : pyStrip s = s := by
  have h1 : s.data.dropWhile Char.isWhitespace = s.data := by
    cases hd : s.data with
    | nil => rfl
    | cons c t =>
      have := h c (by rw [hd]; exact List.mem_cons_self c t)
      simp [List.dropWhile_cons, this]
  have h2 : s.data.reverse.dropWhile Char.isWhitespace = s.data.reverse := by
    cases hd : s.data.reverse with
    | nil => rfl
    | cons c t =>
      have hc : c ∈ s.data := by
        rw [← List.mem_reverse, hd]
        exact List.mem_cons_self c t
      simp [List.dropWhile_cons, h c hc]
  rw [pyStrip, h1, h2, List.reverse_reverse]

/-- Claim C7: the tenant resolver is a total pure function: each of the
three known tenants gets its own worksheet names and ledger-document
coordinates, and every other input — unknown, empty, or absent — falls
back to the canonical default tenant (Private).  For
`get_worksheet_names` the identifier is first normalised by
`(branch or "Private").strip()`, so "other input" means one whose
stripped form is none of the three tenants. -/
theorem tenant_resolver_total_with_default :
    get_worksheet_names (some "Private") = worksheetMapping "Private" ∧
    get_worksheet_names (some "Highschool") = worksheetMapping "Highschool" ∧
    get_worksheet_names (some "Academy") = worksheetMapping "Academy" ∧
    get_worksheet_names none = worksheetMapping "Private" ∧
    get_worksheet_names (some "") = worksheetMapping "Private" ∧
    (∀ s : String, pyStrip s ≠ "Private" → pyStrip s ≠ "Highschool" →
      pyStrip s ≠ "Academy" → s ≠ "" →
      get_worksheet_names (some s) = worksheetMapping "Private") ∧
    ddsSource "Private" =
      ⟨"1FIBAlCkUL2qT9ztd3gfH5kOd3eHLKE53eYKLJzD75dw", "TelegramBotPrivate"⟩ ∧
    ddsSource "Highschool" =
      ⟨"1N_8nASKsuLaQPbs8BuonLGn5tkjM803X--JyC2_OUt8", "TelegramBotHighschool"⟩ ∧
    ddsSource "Academy" =
      ⟨"1NkomZvK6mw-QBa7PWW8MhnFN7DdJ_r2a9PSfg095L4Y", "TelegramBotAcademy"⟩ ∧
    (∀ s : String, s ≠ "Private" → s ≠ "Highschool" → s ≠ "Academy" →
      ddsSource s = ddsSource "Private") := by
  refine ⟨by decide, by decide, by decide, by decide, by decide,
    fun s h1 h2 h3 h4 => ?_, by decide, by decide, by decide,
    fun s h1 h2 h3 => ?_⟩
  · rw [get_worksheet_names]
    rw [if_neg h4, worksheetMapping]
    simp only [h1, h2, h3, if_false]
    decide
  · rw [ddsSource, ddsSource]
    simp [h1, h2, h3]

/-- Witness for C7: the unknown tenant "Gymnasium" and a whitespace-only
tenant both resolve to the Private worksheet names, and an unknown tenant
gets the Private ledger coordinates. -/
theorem tenant_resolver_total_with_default_witness :
    get_worksheet_names (some "Gymnasium") = worksheetMapping "Private" ∧
    get_worksheet_names (some "  ") = worksheetMapping "Private" ∧
    ddsSource "Gymnasium" = ddsSource "Private" :=
  ⟨tenant_resolver_total_with_default.2.2.2.2.2.1 "Gymnasium"
      (by decide) (by decide) (by decide) (by decide),
   tenant_resolver_total_with_default.2.2.2.2.2.1 "  "
      (by decide) (by decide) (by decide) (by decide),
   tenant_resolver_total_with_default.2.2.2.2.2.2.2.2.2 "Gymnasium"
      (by decide) (by decide) (by decide)⟩

/-- The JSON response of a write endpoint: success echoing the written
value and branch, or an error message with an HTTP status code. -/
inductive EndpointResp where
  | ok (written : Option String) (branch : String)
  | err (msg : String) (code : Nat)
deriving DecidableEq, Repr

/-- One `update_acell` write to the backing store: target worksheet,
cell reference, and the value written (`none` models Python `None`). -/
structure WriteOp where
  sheet : String
  cell : String
  value : Option String
deriving DecidableEq, Repr

/-- `students_set_month` (src/app.py lines 292-303), success path: reject
an absent or empty `value` with a 400 error before touching the backing
store; otherwise write `D2` of the tenant's students worksheet and then
`cache.clear()`.  `request.args.get("value", "")` turns an absent
parameter into `""`, so `value` is a plain string. -/
def students_set_month {α : Type} (branch value : String) (writes : List WriteOp)
    (cst : CacheSt String α) : EndpointResp × List WriteOp × CacheSt String α :=
  if value = "" then (.err "Не задан месяц" 400, writes, cst)
  else (.ok (some value) branch,
        writes ++ [⟨(get_worksheet_names (some branch)).students, "D2", some value⟩],
        clearCache cst)

/-- `staff_set_month` (src/app.py lines 319-330), success path: same
validation as `students_set_month`, writing `D1` of the staff
worksheet. -/
def staff_set_month {α : Type} (branch value : String) (writes : List WriteOp)
    (cst : CacheSt String α) : EndpointResp × List WriteOp × CacheSt String α :=
  if value = "" then (.err "Не задан месяц" 400, writes, cst)
  else (.ok (some value) branch,
        writes ++ [⟨(get_worksheet_names (some branch)).staff, "D1", some value⟩],
        clearCache cst)

/-- `set_date` (src/app.py lines 332-341), success path: no validation —
`request.args.get('value')` may be `None` and is written to `F1` of the
tenant's DDS worksheet as-is; then `cache.clear()` and a success response
echoing the (possibly null) value. -/
def set_date {α : Type} (branch : String) (value : Option String) (writes : List WriteOp)
    (cst : CacheSt String α) : EndpointResp × List WriteOp × CacheSt String α :=
  (.ok value branch, writes ++ [⟨(ddsSource branch).sheet, "F1", value⟩], clearCache cst)

/-- `set_month` (src/app.py lines 343-352), success path: like
`set_date` but writing `H1`. -/
def set_month {α : Type} (branch : String) (value : Option String) (writes : List WriteOp)
    (cst : CacheSt String α) : EndpointResp × List WriteOp × CacheSt String α :=
  (.ok value branch, writes ++ [⟨(ddsSource branch).sheet, "H1", value⟩], clearCache cst)

/-- Claim C5: after `invalidate(k)` (and likewise after the `clear()` the
write endpoints use) the next `get(k, ...)` always invokes `compute`;
and the write endpoints, after writing to the backing store, clear the
whole cache, so no subsequent read of any key serves a pre-write cached
value. -/
theorem invalidate_then_get_recomputes {α : Type} :
    (∀ (st : CacheSt String α) (k : String) (now ttl : Nat) (c : Option α),
      (cacheGet (invalidate st k) now k ttl c).computeCalls = 1) ∧
    (∀ (st : CacheSt String α) (k : String) (now ttl : Nat) (c : Option α),
      (cacheGet (clearCache st) now k ttl c).computeCalls = 1) ∧
    (∀ (branch value : String) (writes : List WriteOp) (cst : CacheSt String α),
      value ≠ "" →
      (students_set_month branch value writes cst).2.1 =
        writes ++ [⟨(get_worksheet_names (some branch)).students, "D2", some value⟩] ∧
      ∀ (k : String) (now ttl : Nat) (c : Option α),
        (cacheGet (students_set_month branch value writes cst).2.2 now k ttl c).computeCalls
          = 1) ∧
    (∀ (branch : String) (value : Option String) (writes : List WriteOp)
        (cst : CacheSt String α) (k : String) (now ttl : Nat) (c : Option α),
      (cacheGet (set_month branch value writes cst).2.2 now k ttl c).computeCalls = 1) := by
  have hmiss : ∀ (st : CacheSt String α) (k : String) (now ttl : Nat) (c : Option α),
      lookupEntry st k = none → (cacheGet st now k ttl c).computeCalls = 1 := by
    intro st k now ttl c h
    cases c <;> simp [cacheGet, h]
  refine ⟨fun st k now ttl c => hmiss _ _ _ _ _ (lookupEntry_invalidate_self st k),
    fun st k now ttl c => hmiss _ _ _ _ _ rfl,
    fun branch value writes cst hv => ⟨?_, fun k now ttl c => ?_⟩,
    fun branch value writes cst k now ttl c => ?_⟩
  · simp [students_set_month, hv]
  · have h2 : (students_set_month branch value writes cst).2.2 = ([] : CacheSt String α) := by
      simp [students_set_month, hv, clearCache]
    rw [h2]
    exact hmiss _ _ _ _ _ rfl
  · exact hmiss _ _ _ _ _ rfl

/-- Witness for C5: after invalidating key "bd" whose entry was fresh,
a `get` recomputes, and a `students_set_month` write for the Private
tenant records its backing-store write and leaves a cache in which the
next `get` of "bd" recomputes. -/
theorem invalidate_then_get_recomputes_witness :
    (cacheGet (invalidate [("bd", (⟨7, 0, 100⟩ : CacheEntry Nat))] "bd") 1 "bd" 100
      (some 8)).computeCalls = 1 ∧
    (students_set_month "Private" "Сентябрь" [] ([] : CacheSt String Nat)).2.1 =
      [⟨"UchenikiBotPrivate", "D2", some "Сентябрь"⟩] ∧
    (cacheGet (students_set_month "Private" "Сентябрь" []
      [("bd", (⟨7, 0, 100⟩ : CacheEntry Nat))]).2.2 5 "bd" 100 (some 9)).computeCalls = 1 := by
  refine ⟨invalidate_then_get_recomputes.1 [("bd", ⟨7, 0, 100⟩)] "bd" 1 100 (some 8), ?_, ?_⟩
  · have h := (invalidate_then_get_recomputes.2.2.1 "Private" "Сентябрь" []
      ([] : CacheSt String Nat) (by decide)).1
    rw [h]
    decide
  · exact (invalidate_then_get_recomputes.2.2.1 "Private" "Сентябрь"
      [] [("bd", ⟨7, 0, 100⟩)] (by decide)).2 "bd" 5 100 (some 9)

/-- Claim C10: `set_date` and `set_month` do not validate that a value
was supplied: with no `value` parameter they write `None` to the backing
store and return a success status echoing the null value, while
`students_set_month` and `staff_set_month` reject a missing value with a
400 error before any backing-store write or cache mutation. -/
theorem set_endpoints_missing_value {α : Type} :
    ∀ (branch : String) (writes : List WriteOp) (cst : CacheSt String α),
      set_date branch none writes cst =
        (.ok none branch, writes ++ [⟨(ddsSource branch).sheet, "F1", none⟩], []) ∧
      set_month branch none writes cst =
        (.ok none branch, writes ++ [⟨(ddsSource branch).sheet, "H1", none⟩], []) ∧
      students_set_month branch "" writes cst =
        (.err "Не задан месяц" 400, writes, cst) ∧
      staff_set_month branch "" writes cst =
        (.err "Не задан месяц" 400, writes, cst) := by
  intro branch writes cst
  refine ⟨rfl, rfl, ?_, ?_⟩ <;> simp [students_set_month, staff_set_month]

/-- Python's `needle in hay` substring test over character lists, by
structural recursion on the haystack. -/
def hasInfix (needle : List Char) : List Char → Bool
  | [] => needle.isEmpty
  | c :: t => needle.isPrefixOf (c :: t) || hasInfix needle t

/-- The search predicate of the `breakdown` endpoint (src/app.py line
142): the lowered search string occurs in the lowered counterparty,
purpose, or article field. -/
def matchesSearch (search : String) (r : BreakdownRecord) : Bool :=
  hasInfix search.data (pyLower r.counterparty).data ||
  hasInfix search.data (pyLower r.purpose).data ||
  hasInfix search.data (pyLower r.article).data

/-- `page = max(1, int(request.args.get("page", 1)))` (src/app.py line
137): the 1-based page number coerced to at least 1. -/
def pageClamp (p : Int) : Int := max 1 p

/-- `limit = max(1, min(500, int(request.args.get("limit", 100))))`
(src/app.py line 138): the page size clamped to [1, 500]. -/
def limitClamp (l : Int) : Int := max 1 (min 500 l)

/-- The search filter of `breakdown` (src/app.py lines 139-142): the
search argument is stripped and lowered; when non-empty, keep only the
records one of whose counterparty/purpose/article fields contains it,
case-insensitively. -/
def filteredItems (items : List BreakdownRecord) (searchArg : String) :
    List BreakdownRecord :=
  let search := pyLower (pyStrip searchArg)
  if search = "" then items else items.filter (matchesSearch search)

/-- The pure post-processing of the `breakdown` endpoint (src/app.py
lines 137-144) applied to the reconciled item list: clamp page and
limit, filter by search, and return the Python slice
`items[start : start + limit]` with `start = (page - 1) * limit`. -/
def breakdownQuery (items : List BreakdownRecord) (pageArg limitArg : Int)
    (searchArg : String) : List BreakdownRecord :=
  let start := ((pageClamp pageArg - 1) * limitClamp limitArg).toNat
  ((filteredItems items searchArg).drop start).take (limitClamp limitArg).toNat

/-- Claim C6: pagination of the reconciled list uses a 1-based page
number coerced to at least 1 and a page size clamped to [1, 500], and
never fails for out-of-range pages: any page whose start offset is at or
past the end of the (optionally search-filtered) result is the empty
slice, and no page ever holds more than the clamped limit. -/
theorem breakdown_pagination_safe :
    (∀ p : Int, 1 ≤ pageClamp p) ∧
    (∀ l : Int, 1 ≤ limitClamp l ∧ limitClamp l ≤ 500) ∧
    (∀ (items : List BreakdownRecord) (p l : Int) (s : String),
      (filteredItems items s).length ≤ ((pageClamp p - 1) * limitClamp l).toNat →
      breakdownQuery items p l s = []) ∧
    (∀ (items : List BreakdownRecord) (p l : Int) (s : String),
      (breakdownQuery items p l s).length ≤ (limitClamp l).toNat) := by
  refine ⟨fun p => ?_, fun l => ?_, fun items p l s h => ?_, fun items p l s => ?_⟩
  · rw [pageClamp]; omega
  · rw [limitClamp]; omega
  · rw [breakdownQuery, List.drop_eq_nil_of_le h, List.take_nil]
  · rw [breakdownQuery]
    exact List.length_take_le _ _

/-- Witness for C6: requesting page 999 (limit 100, no search) of a
3-item reconciled result returns the empty list, not an error. -/
theorem breakdown_pagination_safe_witness :
    breakdownQuery
      [⟨"100", "rent", "ACME", "office"⟩, ⟨"50", "food", "Cafe", "lunch"⟩,
       ⟨"7", "", "ACME", "misc"⟩] 999 100 "" = [] :=
  breakdown_pagination_safe.2.2.1
    [⟨"100", "rent", "ACME", "office"⟩, ⟨"50", "food", "Cafe", "lunch"⟩,
     ⟨"7", "", "ACME", "misc"⟩] 999 100 "" (by decide)

/-- Modelled from the spec: the Refresh Scheduler's process-wide
singleton state (§4.3) — no scheduler code is present under src/.  It
carries the running flag guarding `start` and, for observability, the
number of timer jobs ever scheduled. -/
structure Scheduler where
  running : Bool
  scheduledJobs : Nat
deriving DecidableEq, Repr

/-- Modelled from the spec: starting the scheduler (§4.3).  Idempotent:
the running flag guards scheduling, so a second start schedules no
second job. -/
def startScheduler (s : Scheduler) : Scheduler :=
  if s.running then s else ⟨true, s.scheduledJobs + 1⟩

/-- Modelled from the spec: refreshing one hot key during a tick (§4.3):
invalidate it and force its recomputation through the cache layer's
`get`; a failed recomputation is logged and leaves the previously cached
value in place (the stale-over-unavailable policy of §4.1/§4.3). -/
def refreshKey {κ α : Type} [DecidableEq κ] (st : CacheSt κ α) (now ttl : Nat) (k : κ)
    (compute : Option α) : CacheSt κ α × Bool :=
  match compute with
  | some v => ((cacheGet (invalidate st k) now k ttl (some v)).state, true)
  | none => (st, false)

/-- One fold step of a scheduler tick: refresh the key and conjoin its
success into the tick's success flag. -/
def tickStep {κ α : Type} [DecidableEq κ] (computes : κ → Option α) (now ttl : Nat)
    (acc : CacheSt κ α × Bool) (k : κ) : CacheSt κ α × Bool :=
  let r := refreshKey acc.1 now ttl k (computes k)
  (r.1, acc.2 && r.2)

/-- Modelled from the spec: one tick of the recurring timer (§4.3):
refresh every hot key, and report whether the Change Notifier is
notified (on success).  A tick never changes the scheduler state, so no
single tick's failure stops future ticks. -/
def schedulerTick {κ α : Type} [DecidableEq κ] (s : Scheduler) (st : CacheSt κ α)
    (hotKeys : List κ) (computes : κ → Option α) (now ttl : Nat) :
    Scheduler × CacheSt κ α × Bool :=
  let res := hotKeys.foldl (tickStep computes now ttl) (st, true)
  (s, res.1, res.2)

lemma foldl_tickStep_snd {κ α : Type} [DecidableEq κ] (computes : κ → Option α)
    (now ttl : Nat) :
    ∀ (keys : List κ) (st : CacheSt κ α) (b : Bool),
      (∀ k ∈ keys, (computes k).isSome = true) →
      (keys.foldl (tickStep computes now ttl) (st, b)).2 = b := by
  intro keys
  induction keys with
  | nil => intro st b _; rfl
  | cons k t ih =>
    intro st b h
    obtain ⟨v, hv⟩ := Option.isSome_iff_exists.mp (h k (List.mem_cons_self k t))
    have hstep : tickStep computes now ttl (st, b) k =
        ((cacheGet (invalidate st k) now k ttl (some v)).state, b) := by
      simp [tickStep, refreshKey, hv]
    rw [List.foldl_cons, hstep]
    exact ih _ b (fun k2 hk2 => h k2 (List.mem_cons_of_mem k hk2))

/-- Claim C9: (spec-modelled scheduler) the Refresh Scheduler is guarded
by a single running flag: starting it twice is the same as starting it
once and schedules at most one new job; every tick leaves the scheduler
state — including its running flag — unchanged, so no single tick's
failure stops future ticks; a tick's per-key refresh invalidates the key
and stores the freshly computed value on success, leaves the previously
cached state untouched on failure, and the Change Notifier is notified
when every hot key refreshes successfully. -/
theorem scheduler_singleflag_and_tick {κ α : Type} [DecidableEq κ] :
    (∀ s : Scheduler, startScheduler (startScheduler s) = startScheduler s) ∧
    (∀ s : Scheduler, (startScheduler s).running = true ∧
      (startScheduler s).scheduledJobs ≤ s.scheduledJobs + 1) ∧
    (∀ (s : Scheduler) (st : CacheSt κ α) (hotKeys : List κ) (computes : κ → Option α)
        (now ttl : Nat), (schedulerTick s st hotKeys computes now ttl).1 = s) ∧
    (∀ (st : CacheSt κ α) (now ttl : Nat) (k : κ) (v : α),
      lookupEntry (refreshKey st now ttl k (some v)).1 k = some ⟨v, now, ttl⟩) ∧
    (∀ (st : CacheSt κ α) (now ttl : Nat) (k : κ),
      refreshKey st now ttl k none = (st, false)) ∧
    (∀ (s : Scheduler) (st : CacheSt κ α) (hotKeys : List κ) (computes : κ → Option α)
        (now ttl : Nat), (∀ k ∈ hotKeys, (computes k).isSome = true) →
      (schedulerTick s st hotKeys computes now ttl).2.2 = true) := by
  refine ⟨fun s => ?_, fun s => ?_, fun s st hotKeys computes now ttl => rfl,
    fun st now ttl k v => ?_, fun st now ttl k => rfl,
    fun s st hotKeys computes now ttl h => ?_⟩
  · by_cases h : s.running <;> simp [startScheduler, h]
  · by_cases h : s.running <;> simp [startScheduler, h]
  · have hl : lookupEntry (invalidate st k) k = none := lookupEntry_invalidate_self st k
    simp [refreshKey, cacheGet, hl, lookupEntry_storeEntry_self]
  · exact foldl_tickStep_snd computes now ttl hotKeys st true h

/-- Witness for C9: starting a stopped scheduler twice yields one
scheduled job, a tick over two hot keys with one failing compute leaves
the scheduler running, and a tick whose two hot keys both succeed
notifies the Change Notifier. -/
theorem scheduler_singleflag_and_tick_witness :
    startScheduler (startScheduler ⟨false, 0⟩) = ⟨true, 1⟩ ∧
    (schedulerTick ⟨true, 1⟩ ([] : CacheSt String Nat) ["bd", "sv"]
      (fun k => if k = "bd" then some 7 else none) 0 120).1 = ⟨true, 1⟩ ∧
    (schedulerTick ⟨true, 1⟩ ([] : CacheSt String Nat) ["bd", "sv"]
      (fun k => if k = "bd" then some 7 else some 8) 0 120).2.2 = true := by
  refine ⟨?_, ?_, ?_⟩
  · rw [(@scheduler_singleflag_and_tick String Nat _).1 ⟨false, 0⟩]
    decide
  · exact (@scheduler_singleflag_and_tick String Nat _).2.2.1 ⟨true, 1⟩ []
      ["bd", "sv"] (fun k => if k = "bd" then some 7 else none) 0 120
  · exact (@scheduler_singleflag_and_tick String Nat _).2.2.2.2.2 ⟨true, 1⟩ []
      ["bd", "sv"] (fun k => if k = "bd" then some 7 else some 8) 0 120
      (by
        intro k hk
        simp only [List.mem_cons, List.not_mem_nil, or_false] at hk
        rcases hk with rfl | rfl <;> decide)
